import Mathlib

/-!
# The pineapple ledger: transaction and company handlers

A shallow embedding of `handlers/transaction.go` and `handlers/company.go`.

* The relational store is a pair of tables, each a list of rows in insertion order.
  `INSERT` appends a row, `UPDATE ... WHERE id = $n` rewrites every row carrying the id,
  `DELETE ... WHERE id = $1` drops every row carrying the id, `QueryRow` yields the first
  matching row.  The schema is not part of the sources, so no constraint of it is built in:
  whatever makes the real store reject a statement is covered by the fault input below.
* `db.GetDB()` may yield a nil handle: handlers take `db : Option (Store α)`.
* Every statement sent to the store may fail.  `fault k` is the error (if any) of the
  `k`-th store call of the request; a failed statement leaves the tables as they were.
* `uuid.Parse`, `uuid.New`, `time.Now` and `json.Decoder.Decode` are library calls; their
  outcomes are inputs of the handlers (`parse`, `newID`, the clock readings, `Body`).
* `float64` is kept abstract: a type `α` with `+`, `-` and the zero value, which is all the
  handlers use.  Results that need no algebraic law hold for every such `α`.  `F64` is
  binary64 itself, with its rounding, for the places where rounding decides.
* Every handler also reports the list of statements it sent to the store.
* Identifiers (`uuid.UUID`) and instants (`time.Time`) are natural numbers; the store hands
  back the values it was given.  Response headers and the JSON encoding of the payload are
  left out: a response is a status and the value written.
-/

namespace DawnPineapples

abbrev UUID := Nat

abbrev Time := Nat

/-- The Go struct `models.Transaction`. -/
structure Transaction (α : Type) where
  ID : UUID
  Date : Time
  KG : α
  Rate : α
  Amount : α
  Taxi : α
  Cash : α
  Balance : α
  CompanyID : UUID
  CreatedAt : Time
  UpdatedAt : Time
deriving DecidableEq, Repr

/-- The Go struct `sql.NullString`. -/
structure NullString where
  Str : String
  Valid : Bool
deriving DecidableEq, Repr

/-- The Go struct `models.Company`. -/
structure Company where
  ID : UUID
  Name : String
  Image : NullString
deriving DecidableEq, Repr

/-- A row of the table `companies(id, name, image_url)`; `image_url` is nullable. -/
structure CompanyRow where
  id : UUID
  name : String
  image_url : Option String
deriving DecidableEq, Repr

/-- The two tables, rows in insertion order. -/
structure Store (α : Type) where
  transactions : List (Transaction α)
  companies : List CompanyRow
deriving DecidableEq, Repr

/-- The statements the handlers send to the store. -/
inductive Stmt
  | selectPreviousBalance
  | insertTransaction
  | selectTransaction
  | selectCurrentTransaction
  | updateTransaction
  | deleteTransaction
  | insertCompany
  | selectCompany
  | updateCompany
  | deleteCompany
deriving DecidableEq, Repr

/-- What `json.NewDecoder(r.Body).Decode(&v)` made of the request body: an error of the decoder on
malformed JSON, which leaves `v` untouched, or the decoded value. -/
inductive Body (T : Type)
  | malformed (err : String)
  | decoded (v : T)
deriving DecidableEq, Repr

/-- What a handler writes to the response. -/
inductive Payload (α : Type)
  | text (msg : String)
  | transaction (t : Transaction α)
  | company (c : Company)
  | message (msg : String)
deriving DecidableEq, Repr

/-- The HTTP response, or the panic of a handler that dereferences a nil handle. -/
inductive Response (α : Type)
  | http (status : Nat) (body : Payload α)
  | panicked
deriving DecidableEq, Repr

/-- Outcome of one request: the response, the store handle afterwards, the statements sent. -/
structure Result (α : Type) where
  response : Response α
  db : Option (Store α)
  trace : List Stmt
deriving DecidableEq, Repr

def StatusOK : Nat := 200
def StatusCreated : Nat := 201
def StatusBadRequest : Nat := 400
def StatusNotFound : Nat := 404
def StatusInternalServerError : Nat := 500

/-- The text of `sql.ErrNoRows`. -/
def ErrNoRows : String := "sql: no rows in result set"

/-- A store none of whose statements fails. -/
def noFault : Nat → Option String := fun _ => none

/-- Zero value of `models.Company`. -/
def Company.zero : Company := ⟨0, "", ⟨"", false⟩⟩

/-- The driver value of a `sql.NullString`: NULL unless `Valid`. -/
def NullString.value (n : NullString) : Option String :=
  if n.Valid then some n.Str else none

/-- Scanning a nullable column into a `sql.NullString`. -/
def NullString.scan : Option String → NullString
  | none => ⟨"", false⟩
  | some s => ⟨s, true⟩

/-- Scanning a row of `companies` into a `models.Company`. -/
def CompanyRow.scan (r : CompanyRow) : Company :=
  ⟨r.id, r.name, NullString.scan r.image_url⟩

section Queries

variable {α : Type}

/-- `ORDER BY created_at DESC`: a stable sort, rows with equal `created_at` stay in table
order (the real store leaves their order open). -/
def orderByCreatedAtDesc (rows : List (Transaction α)) : List (Transaction α) :=
  rows.insertionSort (fun a b => b.CreatedAt ≤ a.CreatedAt)

/-- `SELECT balance FROM transactions WHERE company_id = $1 ORDER BY created_at DESC LIMIT 1`;
`none` stands for `sql.ErrNoRows`. -/
def selectPreviousBalance (rows : List (Transaction α)) (companyID : UUID) : Option α :=
  (orderByCreatedAtDesc (rows.filter (fun t => t.CompanyID = companyID))).head?.map
    (fun t => t.Balance)

/-- `SELECT ... FROM transactions WHERE id = $1` through `QueryRow`; `none` stands for
`sql.ErrNoRows`. -/
def selectTransaction (rows : List (Transaction α)) (id : UUID) : Option (Transaction α) :=
  rows.find? (fun t => t.ID = id)

/-- `UPDATE transactions SET date = $1, kg = $2, rate = $3, amount = $4, taxi = $5, cash = $6,
balance = $7, updated_at = $8 WHERE id = $9`. -/
def updateTransactionRows (rows : List (Transaction α)) (u : Transaction α) (id : UUID) :
    List (Transaction α) :=
  rows.map (fun t =>
    if t.ID = id then
      { t with Date := u.Date, KG := u.KG, Rate := u.Rate, Amount := u.Amount, Taxi := u.Taxi,
               Cash := u.Cash, Balance := u.Balance, UpdatedAt := u.UpdatedAt }
    else t)

/-- `DELETE FROM transactions WHERE id = $1`. -/
def deleteTransactionRows (rows : List (Transaction α)) (id : UUID) : List (Transaction α) :=
  rows.filter (fun t => ¬ t.ID = id)

/-- `RowsAffected()` of a statement with `WHERE id = $1` on `transactions`. -/
def rowsAffected (rows : List (Transaction α)) (id : UUID) : Nat :=
  rows.countP (fun t => t.ID = id)

/-- `SELECT id, name, image_url FROM companies WHERE id = $1` through `QueryRow`. -/
def selectCompany (rows : List CompanyRow) (id : UUID) : Option CompanyRow :=
  rows.find? (fun c => c.id = id)

/-- `UPDATE companies SET name = $2, image_url = $3 WHERE id = $1`. -/
def updateCompanyRows (rows : List CompanyRow) (c : Company) : List CompanyRow :=
  rows.map (fun r => if r.id = c.ID then { r with name := c.Name, image_url := c.Image.value }
    else r)

/-- `DELETE FROM companies WHERE id = $1`. -/
def deleteCompanyRows (rows : List CompanyRow) (id : UUID) : List CompanyRow :=
  rows.filter (fun c => ¬ c.id = id)

/-- `RowsAffected()` of a statement with `WHERE id = $1` on `companies`. -/
def companyRowsAffected (rows : List CompanyRow) (id : UUID) : Nat :=
  rows.countP (fun c => c.id = id)

end Queries

section TransactionHandlers

variable {α : Type} [Add α] [Sub α] [Zero α]

/-- The handler of `POST /transactions`.  `newID` is the result of `uuid.New()`, `now1` and
`now2` are the two readings of `time.Now()`. -/
def CreateTransaction (fault : Nat → Option String) (db : Option (Store α))
    (body : Body (Transaction α)) (newID : UUID) (now1 now2 : Time) : Result α :=
  match body with
  | .malformed err => ⟨.http StatusBadRequest (.text err), db, []⟩
  | .decoded transaction =>
    match db with
    | none =>
      ⟨.http StatusInternalServerError (.text "Database connection not available"), db, []⟩
    | some s =>
      let transaction := { transaction with ID := newID, CreatedAt := now1, UpdatedAt := now2 }
      match fault 0 with
      | some e =>
        ⟨.http StatusInternalServerError (.text ("Error retrieving previous balance: " ++ e)),
          db, [.selectPreviousBalance]⟩
      | none =>
        let previousBalance : α :=
          match selectPreviousBalance s.transactions transaction.CompanyID with
          | some b => b
          | none => 0
        let transaction :=
          { transaction with Balance := previousBalance + transaction.Amount - transaction.Cash }
        match fault 1 with
        | some e =>
          ⟨.http StatusInternalServerError (.text ("Error inserting transaction: " ++ e)),
            db, [.selectPreviousBalance, .insertTransaction]⟩
        | none =>
          ⟨.http StatusCreated (.transaction transaction),
            some { s with transactions := s.transactions ++ [transaction] },
            [.selectPreviousBalance, .insertTransaction]⟩

/-- The handler of `GET /transactions/{id}`. -/
def GetTransaction (parse : String → Option UUID) (fault : Nat → Option String)
    (db : Option (Store α)) (idStr : String) : Result α :=
  match parse idStr with
  | none => ⟨.http StatusBadRequest (.text "Invalid transaction ID"), db, []⟩
  | some id =>
    match db with
    | none =>
      ⟨.http StatusInternalServerError (.text "Database connection not available"), db, []⟩
    | some s =>
      match fault 0 with
      | some e => ⟨.http StatusInternalServerError (.text e), db, [.selectTransaction]⟩
      | none =>
        match selectTransaction s.transactions id with
        | none => ⟨.http StatusNotFound (.text "Transaction not found"), db, [.selectTransaction]⟩
        | some transaction => ⟨.http StatusOK (.transaction transaction), db, [.selectTransaction]⟩

/-- The handler of `PUT /transactions/{id}`.  `now` is the reading of `time.Now()`. -/
def UpdateTransaction (parse : String → Option UUID) (fault : Nat → Option String)
    (db : Option (Store α)) (idStr : String) (body : Body (Transaction α)) (now : Time) :
    Result α :=
  match parse idStr with
  | none => ⟨.http StatusBadRequest (.text "Invalid transaction ID"), db, []⟩
  | some id =>
    match body with
    | .malformed err => ⟨.http StatusBadRequest (.text err), db, []⟩
    | .decoded updatedTransaction =>
      match db with
      | none =>
        ⟨.http StatusInternalServerError (.text "Database connection not available"), db, []⟩
      | some s =>
        match fault 0 with
        | some e => ⟨.http StatusInternalServerError (.text e), db, [.selectCurrentTransaction]⟩
        | none =>
          match selectTransaction s.transactions id with
          | none =>
            ⟨.http StatusNotFound (.text "Transaction not found"), db,
              [.selectCurrentTransaction]⟩
          | some _ =>
            let updatedTransaction := { updatedTransaction with UpdatedAt := now }
            match fault 1 with
            | some e =>
              ⟨.http StatusInternalServerError (.text ("Error updating transaction: " ++ e)),
                db, [.selectCurrentTransaction, .updateTransaction]⟩
            | none =>
              let s1 : Store α :=
                { s with
                  transactions := updateTransactionRows s.transactions updatedTransaction id }
              match fault 2 with
              | some e =>
                ⟨.http StatusInternalServerError (.text e), some s1,
                  [.selectCurrentTransaction, .updateTransaction, .selectTransaction]⟩
              | none =>
                match selectTransaction s1.transactions id with
                | none =>
                  ⟨.http StatusInternalServerError (.text ErrNoRows), some s1,
                    [.selectCurrentTransaction, .updateTransaction, .selectTransaction]⟩
                | some finalTransaction =>
                  ⟨.http StatusOK (.transaction finalTransaction), some s1,
                    [.selectCurrentTransaction, .updateTransaction, .selectTransaction]⟩

/-- The handler of `DELETE /transactions/{id}`.  `fault 1` is the error of
`result.RowsAffected()`. -/
def DeleteTransaction (parse : String → Option UUID) (fault : Nat → Option String)
    (db : Option (Store α)) (idStr : String) : Result α :=
  match parse idStr with
  | none => ⟨.http StatusBadRequest (.text "Invalid transaction ID"), db, []⟩
  | some id =>
    match db with
    | none =>
      ⟨.http StatusInternalServerError (.text "Database connection not available"), db, []⟩
    | some s =>
      match fault 0 with
      | some e => ⟨.http StatusInternalServerError (.text e), db, [.deleteTransaction]⟩
      | none =>
        let s1 : Store α := { s with transactions := deleteTransactionRows s.transactions id }
        match fault 1 with
        | some e => ⟨.http StatusInternalServerError (.text e), some s1, [.deleteTransaction]⟩
        | none =>
          if rowsAffected s.transactions id = 0 then
            ⟨.http StatusNotFound (.text "Transaction not found"), some s1, [.deleteTransaction]⟩
          else
            ⟨.http StatusOK (.text "Transaction deleted successfully"), some s1,
              [.deleteTransaction]⟩

end TransactionHandlers

section CompanyHandlers

variable {α : Type}

/-- The handler of `POST /companies`.  The error of `Decode` is discarded (`_ = ...`), so a
malformed body leaves `company` at its zero value.  `newID` is the result of `uuid.New()`. -/
def CreateCompany (fault : Nat → Option String) (db : Option (Store α)) (body : Body Company)
    (newID : UUID) : Result α :=
  let company : Company :=
    match body with
    | .malformed _ => Company.zero
    | .decoded c => c
  let company := { company with ID := newID }
  match db with
  | none => ⟨.panicked, db, []⟩
  | some s =>
    match fault 0 with
    | some e => ⟨.http StatusInternalServerError (.text e), db, [.insertCompany]⟩
    | none =>
      ⟨.http StatusOK (.company company),
        some { s with companies := s.companies ++ [⟨company.ID, company.Name, company.Image.value⟩] },
        [.insertCompany]⟩

/-- The handler of `GET /companies/{id}`. -/
def GetCompany (parse : String → Option UUID) (fault : Nat → Option String)
    (db : Option (Store α)) (idStr : String) : Result α :=
  match parse idStr with
  | none => ⟨.http StatusBadRequest (.text "Invalid company ID"), db, []⟩
  | some companyID =>
    match db with
    | none => ⟨.panicked, db, []⟩
    | some s =>
      match fault 0 with
      | some e => ⟨.http StatusInternalServerError (.text e), db, [.selectCompany]⟩
      | none =>
        match selectCompany s.companies companyID with
        | none => ⟨.http StatusNotFound (.text "Company not found"), db, [.selectCompany]⟩
        | some row => ⟨.http StatusOK (.company row.scan), db, [.selectCompany]⟩

/-- The handler of `PUT /companies/{id}`.  The error of `Decode` is discarded here too.
`fault 1` is the error of `res.RowsAffected()`. -/
def UpdateCompany (parse : String → Option UUID) (fault : Nat → Option String)
    (db : Option (Store α)) (idStr : String) (body : Body Company) : Result α :=
  match parse idStr with
  | none => ⟨.http StatusBadRequest (.text "Invalid company ID"), db, []⟩
  | some companyID =>
    let company : Company :=
      match body with
      | .malformed _ => Company.zero
      | .decoded c => c
    let company := { company with ID := companyID }
    match db with
    | none => ⟨.panicked, db, []⟩
    | some s =>
      match fault 0 with
      | some e => ⟨.http StatusInternalServerError (.text e), db, [.updateCompany]⟩
      | none =>
        let s1 : Store α := { s with companies := updateCompanyRows s.companies company }
        match fault 1 with
        | some e => ⟨.http StatusInternalServerError (.text e), some s1, [.updateCompany]⟩
        | none =>
          if companyRowsAffected s.companies company.ID = 0 then
            ⟨.http StatusNotFound (.text "Company not found"), some s1, [.updateCompany]⟩
          else
            match fault 2 with
            | some e =>
              ⟨.http StatusInternalServerError (.text e), some s1,
                [.updateCompany, .selectCompany]⟩
            | none =>
              match selectCompany s1.companies companyID with
              | none =>
                ⟨.http StatusInternalServerError (.text ErrNoRows), some s1,
                  [.updateCompany, .selectCompany]⟩
              | some row =>
                ⟨.http StatusOK (.company row.scan), some s1, [.updateCompany, .selectCompany]⟩

/-- The handler of `DELETE /companies/{id}`.  `fault 1` is the error of `res.RowsAffected()`. -/
def DeleteCompany (parse : String → Option UUID) (fault : Nat → Option String)
    (db : Option (Store α)) (idStr : String) : Result α :=
  match parse idStr with
  | none => ⟨.http StatusBadRequest (.text "Invalid company ID"), db, []⟩
  | some companyID =>
    match db with
    | none => ⟨.panicked, db, []⟩
    | some s =>
      match fault 0 with
      | some e => ⟨.http StatusInternalServerError (.text e), db, [.deleteCompany]⟩
      | none =>
        let s1 : Store α := { s with companies := deleteCompanyRows s.companies companyID }
        match fault 1 with
        | some e => ⟨.http StatusInternalServerError (.text e), some s1, [.deleteCompany]⟩
        | none =>
          if companyRowsAffected s.companies companyID = 0 then
            ⟨.http StatusNotFound (.text "Company not found"), some s1, [.deleteCompany]⟩
          else
            ⟨.http StatusOK
                (.message ("Company with ID " ++ idStr ++ " deleted successfully")),
              some s1, [.deleteCompany]⟩

end CompanyHandlers

section Ledger

variable {α : Type}

/-- The net amount an entry adds to the balance of its company. -/
def net [Sub α] (t : Transaction α) : α := t.Amount - t.Cash

/-- The entries of one company in creation order: `created_at` ascending, a stable sort. -/
def companyLedger (rows : List (Transaction α)) (companyID : UUID) : List (Transaction α) :=
  (rows.filter (fun t => t.CompanyID = companyID)).insertionSort
    (fun a b => a.CreatedAt ≤ b.CreatedAt)

/-- The running-balance invariant on a list of entries in order: the `Balance` of each
entry is the sum of `Amount - Cash` over the entries up to and including it. -/
def RunningBalance [Add α] [Sub α] [Zero α] (l : List (Transaction α)) : Prop :=
  ∀ i : Fin l.length, (l.get i).Balance = ((l.take (i.val + 1)).map net).sum

instance [Add α] [Sub α] [Zero α] [DecidableEq α] (l : List (Transaction α)) :
    Decidable (RunningBalance l) :=
  by unfold RunningBalance; infer_instance

/-- The running total as the handler builds it up, one creation after the other: start from
the zero value and, entry by entry, add the `Amount` and then subtract the `Cash`, with the
`+` and `-` of the number type. -/
def runningTotal [Add α] [Sub α] [Zero α] (l : List (Transaction α)) : α :=
  l.foldl (fun acc t => acc + t.Amount - t.Cash) 0

/-- The carried balance on a list of entries in order: the `Balance` of each entry is the
running total of the entries up to and including it. -/
def CarriedBalance [Add α] [Sub α] [Zero α] (l : List (Transaction α)) : Prop :=
  ∀ i : Fin l.length, (l.get i).Balance = runningTotal (l.take (i.val + 1))

instance [Add α] [Sub α] [Zero α] [DecidableEq α] (l : List (Transaction α)) :
    Decidable (CarriedBalance l) :=
  by unfold CarriedBalance; infer_instance

/-- One call of `POST /transactions`, with everything the handler draws from outside. -/
structure CreateCall (α : Type) where
  fault : Nat → Option String
  body : Body (Transaction α)
  newID : UUID
  now1 : Time
  now2 : Time

/-- The store handle after a sequence of `CreateTransaction` calls. -/
def runCreates [Add α] [Sub α] [Zero α] (db : Option (Store α)) :
    List (CreateCall α) → Option (Store α)
  | [] => db
  | c :: cs => runCreates (CreateTransaction c.fault db c.body c.newID c.now1 c.now2).db cs

/-- The empty store. -/
def Store.empty : Store α := ⟨[], []⟩

end Ledger


section Float64

/-- Number of binary digits of `n`, by halving at most `fuel` times. -/
def bitLengthAux : Nat → Nat → Nat
  | 0, _ => 0
  | fuel + 1, n => if n = 0 then 0 else bitLengthAux fuel (n / 2) + 1

/-- Number of binary digits of a natural number (0 for 0). -/
def bitLength (n : Nat) : Nat := bitLengthAux n n

/-- The values of Go's `float64` (IEEE 754 binary64).  A finite value is `m * 2 ^ e` with
`|m| < 2 ^ 53` and `-1074 ≤ e ≤ 971`, written with `2 ^ 52 ≤ |m|` unless `e = -1074`, and
zero is written `finite 0 0`, so that every finite value has one form.  The two zeros are
one value (Go's `==` does not tell them apart). -/
inductive F64
  | finite (m : Int) (e : Int)
  | inf (negative : Bool)
  | nan
deriving DecidableEq, Repr

/-- The `float64` nearest to the exact number `m * 2 ^ e`, ties going to the even
significand, and to an infinity from `2 ^ 1024` on: the rounding of every binary64
operation. -/
def F64.round (m : Int) (e : Int) : F64 :=
  if m = 0 then .finite 0 0
  else
    let n : Int := bitLength m.natAbs
    let q : Int := max (e + n - 53) (-1074)
    if q ≤ e then
      if 1024 < e + n then .inf (decide (m < 0))
      else .finite (m * ((2 ^ (e - q).toNat : Nat) : Int)) q
    else
      let k : Nat := (q - e).toNat
      let lo : Nat := m.natAbs % 2 ^ k
      let hi : Nat := m.natAbs / 2 ^ k
      let half : Nat := 2 ^ (k - 1)
      let r : Nat := if half < lo ∨ (lo = half ∧ hi % 2 = 1) then hi + 1 else hi
      if r = 0 then .finite 0 0
      else if r = 2 ^ 53 then
        if 971 < q + 1 then .inf (decide (m < 0))
        else .finite (m.sign * ((2 ^ 52 : Nat) : Int)) (q + 1)
      else
        if 971 < q then .inf (decide (m < 0)) else .finite (m.sign * (r : Int)) q

/-- The `+` of `float64`: the exact sum, rounded. -/
def F64.add : F64 → F64 → F64
  | .nan, _ => .nan
  | _, .nan => .nan
  | .inf a, .inf b => if a = b then .inf a else .nan
  | .inf a, .finite _ _ => .inf a
  | .finite _ _, .inf b => .inf b
  | .finite m1 e1, .finite m2 e2 =>
    F64.round (m1 * ((2 ^ (e1 - min e1 e2).toNat : Nat) : Int)
      + m2 * ((2 ^ (e2 - min e1 e2).toNat : Nat) : Int)) (min e1 e2)

/-- The unary `-` of `float64`. -/
def F64.neg : F64 → F64
  | .finite m e => .finite (-m) e
  | .inf b => .inf (!b)
  | .nan => .nan

/-- The `-` of `float64`: `a - b` is `a + (-b)`. -/
def F64.sub (a b : F64) : F64 := a.add b.neg

instance : Add F64 := ⟨F64.add⟩

instance : Sub F64 := ⟨F64.sub⟩

instance : Zero F64 := ⟨.finite 0 0⟩

/-- The `float64` a whole number in a JSON body decodes to. -/
def F64.ofInt (i : Int) : F64 := F64.round i 0

end Float64

section Examples

instance createdAtDesc_isTotal {α : Type} :
    IsTotal (Transaction α) (fun a b => b.CreatedAt ≤ a.CreatedAt) :=
  ⟨fun a b => Nat.le_total b.CreatedAt a.CreatedAt⟩

instance createdAtDesc_isTrans {α : Type} :
    IsTrans (Transaction α) (fun a b => b.CreatedAt ≤ a.CreatedAt) :=
  ⟨fun _ _ _ hab hbc => Nat.le_trans hbc hab⟩

/-- A `uuid.Parse` for the examples: it knows the textual forms of the identifiers 5, 6, 7. -/
def exampleParse (str : String) : Option UUID :=
  if str = "5" then some 5 else if str = "6" then some 6 else if str = "7" then some 7 else none

/-- Two creations for company 1: amount 100 and cash 30 at time 1, then amount 50 and cash
20 at time 2.  The bodies carry a `Balance` of 999. -/
def exampleCalls : List (CreateCall Int) :=
  [⟨noFault, .decoded ⟨0, 0, 0, 0, 100, 0, 30, 999, 1, 0, 0⟩, 5, 1, 1⟩,
   ⟨noFault, .decoded ⟨0, 0, 0, 0, 50, 0, 20, 999, 1, 0, 0⟩, 6, 2, 2⟩]

/-- The store the two creations of `exampleCalls` leave: balances 70 and 100. -/
def exampleStore : Store Int :=
  ⟨[⟨5, 0, 0, 0, 100, 0, 30, 70, 1, 1, 1⟩, ⟨6, 0, 0, 0, 50, 0, 20, 100, 1, 2, 2⟩], []⟩

/-- Two creations for company 1 with `float64` numbers: amount 9007199254740992 (`2 ^ 53`)
and cash 0 at time 1, then amount 1 and cash 1 at time 2. -/
def roundingCalls : List (CreateCall F64) :=
  [⟨noFault, .decoded ⟨0, 0, 0, 0, F64.ofInt 9007199254740992, 0, F64.ofInt 0, 0, 1, 0, 0⟩,
      5, 1, 1⟩,
   ⟨noFault, .decoded ⟨0, 0, 0, 0, F64.ofInt 1, 0, F64.ofInt 1, 0, 1, 0, 0⟩, 6, 2, 2⟩]

/-- The store the two creations of `roundingCalls` leave: balances 9007199254740992 and
9007199254740991. -/
def roundingStore : Store F64 :=
  ⟨[⟨5, 0, 0, 0, F64.ofInt 9007199254740992, 0, F64.ofInt 0, F64.ofInt 9007199254740992,
      1, 1, 1⟩,
    ⟨6, 0, 0, 0, F64.ofInt 1, 0, F64.ofInt 1, F64.ofInt 9007199254740991, 1, 2, 2⟩], []⟩

end Examples


section Lemmas

variable {α : Type}

theorem selectTransaction_eq_none {rows : List (Transaction α)} {id : UUID}
    (h : ∀ t ∈ rows, t.ID ≠ id) : selectTransaction rows id = none := by
  unfold selectTransaction
  rw [List.find?_eq_none]
  intro t ht
  simpa using h t ht

theorem selectTransaction_isSome {rows : List (Transaction α)} {id : UUID}
    (h : ∃ t ∈ rows, t.ID = id) :
    ∃ cur, selectTransaction rows id = some cur ∧ cur ∈ rows ∧ cur.ID = id := by
  obtain ⟨t, ht, hid⟩ := h
  cases hf : selectTransaction rows id with
  | none =>
    unfold selectTransaction at hf
    rw [List.find?_eq_none] at hf
    exact absurd hid (by simpa using hf t ht)
  | some cur =>
    unfold selectTransaction at hf
    exact ⟨cur, rfl, List.mem_of_find?_eq_some hf, by simpa using List.find?_some hf⟩

theorem deleteTransactionRows_eq_self {rows : List (Transaction α)} {id : UUID}
    (h : ∀ t ∈ rows, t.ID ≠ id) : deleteTransactionRows rows id = rows := by
  unfold deleteTransactionRows
  rw [List.filter_eq_self]
  intro t ht
  simpa using h t ht

theorem rowsAffected_eq_zero {rows : List (Transaction α)} {id : UUID}
    (h : ∀ t ∈ rows, t.ID ≠ id) : rowsAffected rows id = 0 := by
  unfold rowsAffected
  rw [List.countP_eq_zero]
  intro t ht
  simpa using h t ht

theorem rowsAffected_ne_zero {rows : List (Transaction α)} {id : UUID}
    (h : ∃ t ∈ rows, t.ID = id) : rowsAffected rows id ≠ 0 := by
  obtain ⟨t, ht, hid⟩ := h
  unfold rowsAffected
  intro h0
  rw [List.countP_eq_zero] at h0
  exact absurd hid (by simpa using h0 t ht)

theorem not_mem_deleteTransactionRows (rows : List (Transaction α)) (id : UUID) :
    ∀ t ∈ deleteTransactionRows rows id, t.ID ≠ id := by
  intro t ht
  unfold deleteTransactionRows at ht
  simpa using (List.mem_filter.mp ht).2

theorem selectTransaction_updateTransactionRows {rows : List (Transaction α)} {id : UUID}
    {cur : Transaction α} (u : Transaction α) (h : selectTransaction rows id = some cur) :
    selectTransaction (updateTransactionRows rows u id) id =
      some ⟨cur.ID, u.Date, u.KG, u.Rate, u.Amount, u.Taxi, u.Cash, u.Balance, cur.CompanyID,
        cur.CreatedAt, u.UpdatedAt⟩ := by
  unfold selectTransaction at h ⊢
  unfold updateTransactionRows
  induction rows with
  | nil => simp at h
  | cons t ts ih =>
    rw [List.map_cons]
    by_cases ht : t.ID = id
    · rw [List.find?_cons_of_pos _ (by simpa using ht)] at h
      rw [if_pos ht, List.find?_cons_of_pos _ (by simpa using ht)]
      cases h
      rfl
    · rw [List.find?_cons_of_neg _ (by simpa using ht)] at h
      rw [if_neg ht, List.find?_cons_of_neg _ (by simpa using ht)]
      exact ih h

end Lemmas


section Claims

variable {α : Type}

/-- C8: on every `{id}` path, an identifier that `uuid.Parse` rejects is answered with
status 400 whatever the body, the store handle (nil or not), the faults of the store and
its contents; the store is handed back as it was and no statement is sent to it. -/
theorem C8_malformed_id_rejected_before_store (parse : String → Option UUID) (idStr : String)
    (h : parse idStr = none) (fault : Nat → Option String) (db : Option (Store α))
    (tbody : Body (Transaction α)) (cbody : Body Company) (now : Time) :
    GetTransaction parse fault db idStr
        = ⟨.http 400 (.text "Invalid transaction ID"), db, []⟩
    ∧ UpdateTransaction parse fault db idStr tbody now
        = ⟨.http 400 (.text "Invalid transaction ID"), db, []⟩
    ∧ DeleteTransaction parse fault db idStr
        = ⟨.http 400 (.text "Invalid transaction ID"), db, []⟩
    ∧ GetCompany parse fault db idStr = ⟨.http 400 (.text "Invalid company ID"), db, []⟩
    ∧ UpdateCompany parse fault db idStr cbody
        = ⟨.http 400 (.text "Invalid company ID"), db, []⟩
    ∧ DeleteCompany parse fault db idStr
        = ⟨.http 400 (.text "Invalid company ID"), db, []⟩ := by
  simp only [GetTransaction, UpdateTransaction, DeleteTransaction, GetCompany, UpdateCompany,
    DeleteCompany, h, StatusBadRequest, and_self]

theorem C8_malformed_id_rejected_before_store_witness :
    (fun s : String => if s = "7" then some 7 else none) "not-a-uuid" = none
    ∧ (GetTransaction (fun s => if s = "7" then some 7 else none) (fun _ => some "down")
          (none : Option (Store Int)) "not-a-uuid"
        = ⟨.http 400 (.text "Invalid transaction ID"), none, []⟩
      ∧ UpdateTransaction (fun s => if s = "7" then some 7 else none) (fun _ => some "down")
          (none : Option (Store Int)) "not-a-uuid" (.malformed "EOF") 3
        = ⟨.http 400 (.text "Invalid transaction ID"), none, []⟩
      ∧ DeleteTransaction (fun s => if s = "7" then some 7 else none) (fun _ => some "down")
          (none : Option (Store Int)) "not-a-uuid"
        = ⟨.http 400 (.text "Invalid transaction ID"), none, []⟩
      ∧ GetCompany (fun s => if s = "7" then some 7 else none) (fun _ => some "down")
          (none : Option (Store Int)) "not-a-uuid"
        = ⟨.http 400 (.text "Invalid company ID"), none, []⟩
      ∧ UpdateCompany (fun s => if s = "7" then some 7 else none) (fun _ => some "down")
          (none : Option (Store Int)) "not-a-uuid" (.malformed "EOF")
        = ⟨.http 400 (.text "Invalid company ID"), none, []⟩
      ∧ DeleteCompany (fun s => if s = "7" then some 7 else none) (fun _ => some "down")
          (none : Option (Store Int)) "not-a-uuid"
        = ⟨.http 400 (.text "Invalid company ID"), none, []⟩) :=
  ⟨by decide, C8_malformed_id_rejected_before_store _ "not-a-uuid" (by decide)
    (fun _ => some "down") none (.malformed "EOF") (.malformed "EOF") 3⟩

/-- C6: for a well-formed id that no transaction of the store carries, `GetTransaction`
answers 404 with a text and no entity, `UpdateTransaction` with a well-formed body and
`DeleteTransaction` answer 404 too, and all three hand the store back unchanged. -/
theorem C6_unknown_id_not_found (parse : String → Option UUID) (idStr : String) (id : UUID)
    (hp : parse idStr = some id) (s : Store α) (h : ∀ t ∈ s.transactions, t.ID ≠ id)
    (u : Transaction α) (now : Time) :
    GetTransaction parse noFault (some s) idStr
        = ⟨.http 404 (.text "Transaction not found"), some s, [.selectTransaction]⟩
    ∧ UpdateTransaction parse noFault (some s) idStr (.decoded u) now
        = ⟨.http 404 (.text "Transaction not found"), some s, [.selectCurrentTransaction]⟩
    ∧ DeleteTransaction parse noFault (some s) idStr
        = ⟨.http 404 (.text "Transaction not found"), some s, [.deleteTransaction]⟩ := by
  simp only [GetTransaction, UpdateTransaction, DeleteTransaction, hp, noFault,
    selectTransaction_eq_none h, deleteTransactionRows_eq_self h, rowsAffected_eq_zero h,
    StatusNotFound, if_true, and_self]

/-- C5: deleting a transaction that is in the store answers 200, and deleting the same id
again right afterwards answers 404. -/
theorem C5_second_delete_not_found (parse : String → Option UUID) (idStr : String) (id : UUID)
    (hp : parse idStr = some id) (s : Store α) (h : ∃ t ∈ s.transactions, t.ID = id) :
    (DeleteTransaction parse noFault (some s) idStr).response
        = .http 200 (.text "Transaction deleted successfully")
    ∧ (DeleteTransaction parse noFault (DeleteTransaction parse noFault (some s) idStr).db
          idStr).response
        = .http 404 (.text "Transaction not found") := by
  have h1 : DeleteTransaction parse noFault (some s) idStr
      = ⟨.http 200 (.text "Transaction deleted successfully"),
          some { s with transactions := deleteTransactionRows s.transactions id },
          [.deleteTransaction]⟩ := by
    simp only [DeleteTransaction, hp, noFault, rowsAffected_ne_zero h, StatusOK, if_false]
  have h2 := not_mem_deleteTransactionRows s.transactions id
  refine ⟨by rw [h1], ?_⟩
  rw [h1]
  simp only [DeleteTransaction, hp, noFault, rowsAffected_eq_zero h2, StatusNotFound, if_true]

theorem C6_unknown_id_not_found_witness :
    (fun s : String => if s = "7" then some 7 else none) "7" = some 7
    ∧ (∀ t ∈ (⟨[⟨5, 0, 0, 0, 100, 0, 30, 70, 1, 1, 1⟩], []⟩ : Store Int).transactions, t.ID ≠ 7)
    ∧ (GetTransaction (fun s => if s = "7" then some 7 else none) noFault
          (some (⟨[⟨5, 0, 0, 0, 100, 0, 30, 70, 1, 1, 1⟩], []⟩ : Store Int)) "7"
        = ⟨.http 404 (.text "Transaction not found"),
            some ⟨[⟨5, 0, 0, 0, 100, 0, 30, 70, 1, 1, 1⟩], []⟩, [.selectTransaction]⟩
      ∧ UpdateTransaction (fun s => if s = "7" then some 7 else none) noFault
          (some (⟨[⟨5, 0, 0, 0, 100, 0, 30, 70, 1, 1, 1⟩], []⟩ : Store Int)) "7"
          (.decoded ⟨0, 0, 0, 0, 1, 0, 1, 0, 0, 0, 0⟩) 9
        = ⟨.http 404 (.text "Transaction not found"),
            some ⟨[⟨5, 0, 0, 0, 100, 0, 30, 70, 1, 1, 1⟩], []⟩, [.selectCurrentTransaction]⟩
      ∧ DeleteTransaction (fun s => if s = "7" then some 7 else none) noFault
          (some (⟨[⟨5, 0, 0, 0, 100, 0, 30, 70, 1, 1, 1⟩], []⟩ : Store Int)) "7"
        = ⟨.http 404 (.text "Transaction not found"),
            some ⟨[⟨5, 0, 0, 0, 100, 0, 30, 70, 1, 1, 1⟩], []⟩, [.deleteTransaction]⟩) :=
  ⟨by decide, by decide,
    C6_unknown_id_not_found _ "7" 7 (by decide) ⟨[⟨5, 0, 0, 0, 100, 0, 30, 70, 1, 1, 1⟩], []⟩
      (by decide) ⟨0, 0, 0, 0, 1, 0, 1, 0, 0, 0, 0⟩ 9⟩

theorem C5_second_delete_not_found_witness :
    (fun s : String => if s = "5" then some 5 else none) "5" = some 5
    ∧ (∃ t ∈ (⟨[⟨5, 0, 0, 0, 100, 0, 30, 70, 1, 1, 1⟩], []⟩ : Store Int).transactions, t.ID = 5)
    ∧ ((DeleteTransaction (fun s => if s = "5" then some 5 else none) noFault
          (some (⟨[⟨5, 0, 0, 0, 100, 0, 30, 70, 1, 1, 1⟩], []⟩ : Store Int)) "5").response
        = .http 200 (.text "Transaction deleted successfully")
      ∧ (DeleteTransaction (fun s => if s = "5" then some 5 else none) noFault
          (DeleteTransaction (fun s => if s = "5" then some 5 else none) noFault
            (some (⟨[⟨5, 0, 0, 0, 100, 0, 30, 70, 1, 1, 1⟩], []⟩ : Store Int)) "5").db
          "5").response
        = .http 404 (.text "Transaction not found")) :=
  ⟨by decide, by decide,
    C5_second_delete_not_found _ "5" 5 (by decide) ⟨[⟨5, 0, 0, 0, 100, 0, 30, 70, 1, 1, 1⟩], []⟩
      (by decide)⟩

/-- C3: whatever the faults of the store and whatever the body, `UpdateTransaction` on a
well-formed id leaves a store with the same companies and as many transactions, where every
row whose id is not the one of the request sits at its place with every field unchanged;
so no other transaction of the company has its `Balance` changed. -/
theorem C3_update_leaves_other_rows (parse : String → Option UUID) (idStr : String) (id : UUID)
    (hp : parse idStr = some id) (fault : Nat → Option String) (s : Store α)
    (body : Body (Transaction α)) (now : Time) :
    ∃ s1 : Store α, (UpdateTransaction parse fault (some s) idStr body now).db = some s1
      ∧ s1.companies = s.companies
      ∧ s1.transactions.length = s.transactions.length
      ∧ (∀ (i : Nat) (t : Transaction α), s.transactions[i]? = some t → t.ID ≠ id →
          s1.transactions[i]? = some t)
      ∧ (∀ t ∈ s1.transactions, t.ID ≠ id → t ∈ s.transactions) := by
  have key : ∀ u : Transaction α,
      (updateTransactionRows s.transactions u id).length = s.transactions.length
      ∧ (∀ (i : Nat) (t : Transaction α), s.transactions[i]? = some t → t.ID ≠ id →
          (updateTransactionRows s.transactions u id)[i]? = some t)
      ∧ (∀ t ∈ updateTransactionRows s.transactions u id, t.ID ≠ id → t ∈ s.transactions) := by
    intro u
    refine ⟨by simp [updateTransactionRows], ?_, ?_⟩
    · intro i t hi ht
      simp [updateTransactionRows, List.getElem?_map, hi, ht]
    · intro t ht hne
      simp only [updateTransactionRows, List.mem_map] at ht
      obtain ⟨r, hr, hrt⟩ := ht
      by_cases hid : r.ID = id
      · rw [if_pos hid] at hrt
        subst hrt
        exact absurd hid hne
      · rw [if_neg hid] at hrt
        subst hrt
        exact hr
  have same : s.companies = s.companies ∧ s.transactions.length = s.transactions.length
      ∧ (∀ (i : Nat) (t : Transaction α), s.transactions[i]? = some t → t.ID ≠ id →
          s.transactions[i]? = some t)
      ∧ (∀ t ∈ s.transactions, t.ID ≠ id → t ∈ s.transactions) :=
    ⟨rfl, rfl, fun _ _ h _ => h, fun _ h _ => h⟩
  unfold UpdateTransaction
  simp only [hp]
  cases body with
  | malformed err => exact ⟨s, rfl, same⟩
  | decoded u =>
    simp only
    cases fault 0 with
    | some e => exact ⟨s, rfl, same⟩
    | none =>
      simp only
      cases selectTransaction s.transactions id with
      | none => exact ⟨s, rfl, same⟩
      | some cur =>
        simp only
        cases fault 1 with
        | some e => exact ⟨s, rfl, same⟩
        | none =>
          simp only
          cases fault 2 with
          | some e => exact ⟨_, rfl, rfl, key _⟩
          | none =>
            simp only
            split <;> exact ⟨_, rfl, rfl, key _⟩

theorem C3_update_leaves_other_rows_witness :
    (fun s : String => if s = "5" then some 5 else none) "5" = some 5
    ∧ ∃ s1 : Store Int,
      (UpdateTransaction (fun s => if s = "5" then some 5 else none) noFault
        (some (⟨[⟨5, 0, 0, 0, 100, 0, 30, 70, 1, 1, 1⟩, ⟨6, 0, 0, 0, 50, 0, 20, 100, 1, 2, 2⟩],
          []⟩ : Store Int)) "5" (.decoded ⟨0, 0, 0, 0, 200, 0, 30, 170, 0, 0, 0⟩) 9).db = some s1
      ∧ s1.companies
        = (⟨[⟨5, 0, 0, 0, 100, 0, 30, 70, 1, 1, 1⟩, ⟨6, 0, 0, 0, 50, 0, 20, 100, 1, 2, 2⟩],
          []⟩ : Store Int).companies
      ∧ s1.transactions.length
        = (⟨[⟨5, 0, 0, 0, 100, 0, 30, 70, 1, 1, 1⟩, ⟨6, 0, 0, 0, 50, 0, 20, 100, 1, 2, 2⟩],
          []⟩ : Store Int).transactions.length
      ∧ (∀ (i : Nat) (t : Transaction Int),
          (⟨[⟨5, 0, 0, 0, 100, 0, 30, 70, 1, 1, 1⟩, ⟨6, 0, 0, 0, 50, 0, 20, 100, 1, 2, 2⟩],
            []⟩ : Store Int).transactions[i]? = some t → t.ID ≠ 5 →
          s1.transactions[i]? = some t)
      ∧ (∀ t ∈ s1.transactions, t.ID ≠ 5 → t ∈
          (⟨[⟨5, 0, 0, 0, 100, 0, 30, 70, 1, 1, 1⟩, ⟨6, 0, 0, 0, 50, 0, 20, 100, 1, 2, 2⟩],
            []⟩ : Store Int).transactions) :=
  ⟨by decide, C3_update_leaves_other_rows _ "5" 5 (by decide) noFault _ _ 9⟩

/-- C4: when the store holds a transaction with the id of the request, `UpdateTransaction`
with a well-formed body answers 200 with the row it has just written: `Date`, `KG`, `Rate`,
`Amount`, `Taxi`, `Cash` and `Balance` are those of the body (the `Balance` is not
recomputed), `UpdatedAt` is the time of the update, and `ID`, `CompanyID`, `CreatedAt` are
those of the row that was there, whatever the body says. -/
theorem C4_update_returns_persisted_entry (parse : String → Option UUID) (idStr : String)
    (id : UUID) (hp : parse idStr = some id) (s : Store α)
    (h : ∃ t ∈ s.transactions, t.ID = id) (u : Transaction α) (now : Time) :
    ∃ (cur : Transaction α) (s1 : Store α), cur ∈ s.transactions ∧ cur.ID = id
      ∧ UpdateTransaction parse noFault (some s) idStr (.decoded u) now
        = ⟨.http 200 (.transaction ⟨id, u.Date, u.KG, u.Rate, u.Amount, u.Taxi, u.Cash,
              u.Balance, cur.CompanyID, cur.CreatedAt, now⟩),
            some s1, [.selectCurrentTransaction, .updateTransaction, .selectTransaction]⟩
      ∧ (⟨id, u.Date, u.KG, u.Rate, u.Amount, u.Taxi, u.Cash, u.Balance, cur.CompanyID,
            cur.CreatedAt, now⟩ : Transaction α) ∈ s1.transactions
      ∧ s1.companies = s.companies := by
  obtain ⟨cur, hcur, hmem, hid⟩ := selectTransaction_isSome h
  have hfin := selectTransaction_updateTransactionRows { u with UpdatedAt := now } hcur
  rw [hid] at hfin
  refine ⟨cur, { s with transactions :=
    updateTransactionRows s.transactions { u with UpdatedAt := now } id }, hmem, hid, ?_, ?_, rfl⟩
  · simp only [UpdateTransaction, hp, noFault, hcur, hfin, StatusOK]
  · exact List.mem_of_find?_eq_some hfin

theorem C4_update_returns_persisted_entry_witness :
    (fun s : String => if s = "5" then some 5 else none) "5" = some 5
    ∧ (∃ t ∈ (⟨[⟨5, 0, 0, 0, 100, 0, 30, 70, 1, 1, 1⟩], []⟩ : Store Int).transactions, t.ID = 5)
    ∧ ∃ (cur : Transaction Int) (s1 : Store Int),
      cur ∈ (⟨[⟨5, 0, 0, 0, 100, 0, 30, 70, 1, 1, 1⟩], []⟩ : Store Int).transactions
      ∧ cur.ID = 5
      ∧ UpdateTransaction (fun s => if s = "5" then some 5 else none) noFault
          (some (⟨[⟨5, 0, 0, 0, 100, 0, 30, 70, 1, 1, 1⟩], []⟩ : Store Int)) "5"
          (.decoded ⟨8, 4, 2, 3, 200, 1, 30, 12345, 2, 77, 78⟩) 9
        = ⟨.http 200 (.transaction ⟨5, 4, 2, 3, 200, 1, 30, 12345, cur.CompanyID,
              cur.CreatedAt, 9⟩),
            some s1, [.selectCurrentTransaction, .updateTransaction, .selectTransaction]⟩
      ∧ (⟨5, 4, 2, 3, 200, 1, 30, 12345, cur.CompanyID, cur.CreatedAt, 9⟩ : Transaction Int)
          ∈ s1.transactions
      ∧ s1.companies = (⟨[⟨5, 0, 0, 0, 100, 0, 30, 70, 1, 1, 1⟩], []⟩ : Store Int).companies :=
  ⟨by decide, by decide,
    C4_update_returns_persisted_entry _ "5" 5 (by decide)
      ⟨[⟨5, 0, 0, 0, 100, 0, 30, 70, 1, 1, 1⟩], []⟩ (by decide)
      ⟨8, 4, 2, 3, 200, 1, 30, 12345, 2, 77, 78⟩ 9⟩

end Claims


section PreviousBalance

variable {α : Type}

/-- The row `ORDER BY created_at DESC LIMIT 1` picks: none when the company has no row,
otherwise a row of the company that no row of the company is created after. -/
theorem selectPreviousBalance_spec (rows : List (Transaction α)) (cid : UUID) :
    (selectPreviousBalance rows cid = none ∧ ∀ r ∈ rows, r.CompanyID ≠ cid)
    ∨ ∃ r ∈ rows, r.CompanyID = cid
        ∧ (∀ q ∈ rows, q.CompanyID = cid → q.CreatedAt ≤ r.CreatedAt)
        ∧ selectPreviousBalance rows cid = some r.Balance := by
  have hsorted := List.sorted_insertionSort (fun a b : Transaction α => b.CreatedAt ≤ a.CreatedAt)
    (rows.filter (fun t => t.CompanyID = cid))
  have hmem : ∀ x, x ∈ orderByCreatedAtDesc (rows.filter (fun t => t.CompanyID = cid))
      ↔ x ∈ rows ∧ x.CompanyID = cid := by
    intro x
    unfold orderByCreatedAtDesc
    rw [List.mem_insertionSort, List.mem_filter]
    simp
  unfold selectPreviousBalance
  cases hl : orderByCreatedAtDesc (rows.filter (fun t => t.CompanyID = cid)) with
  | nil =>
    left
    refine ⟨rfl, ?_⟩
    intro r hr hc
    have := (hmem r).mpr ⟨hr, hc⟩
    rw [hl] at this
    exact absurd this (List.not_mem_nil r)
  | cons r tl =>
    right
    have hr := (hmem r).mp (by rw [hl]; exact List.mem_cons_self r tl)
    refine ⟨r, hr.1, hr.2, ?_, rfl⟩
    intro q hq hc
    have hq2 := (hmem q).mpr ⟨hq, hc⟩
    rw [hl] at hq2
    unfold orderByCreatedAtDesc at hl
    rw [hl] at hsorted
    rcases List.mem_cons.mp hq2 with heq | htl
    · rw [heq]
    · exact List.rel_of_sorted_cons hsorted q htl

end PreviousBalance

section CreateClaims

variable {α : Type} [Add α] [Sub α] [Zero α]

/-- C1: on a store whose statements do not fail, `CreateTransaction` with a well-formed body
answers 201 and appends the entry with `Balance = previousBalance + Amount - Cash`, where
`previousBalance` is 0 when the store has no row of the company, and otherwise the `Balance`
of a row of that company that no row of that company is created after; the `Balance` sent
in the body has no effect on the outcome. -/
theorem C1_create_balance (s : Store α) (tx : Transaction α) (newID : UUID) (now1 now2 : Time) :
    ∃ previousBalance : α,
      (((∀ r ∈ s.transactions, r.CompanyID ≠ tx.CompanyID) ∧ previousBalance = 0)
        ∨ ∃ r ∈ s.transactions, r.CompanyID = tx.CompanyID
            ∧ (∀ q ∈ s.transactions, q.CompanyID = tx.CompanyID → q.CreatedAt ≤ r.CreatedAt)
            ∧ previousBalance = r.Balance)
      ∧ CreateTransaction noFault (some s) (.decoded tx) newID now1 now2
        = ⟨.http 201 (.transaction ⟨newID, tx.Date, tx.KG, tx.Rate, tx.Amount, tx.Taxi, tx.Cash,
              previousBalance + tx.Amount - tx.Cash, tx.CompanyID, now1, now2⟩),
            some ⟨s.transactions ++ [⟨newID, tx.Date, tx.KG, tx.Rate, tx.Amount, tx.Taxi,
              tx.Cash, previousBalance + tx.Amount - tx.Cash, tx.CompanyID, now1, now2⟩],
              s.companies⟩,
            [.selectPreviousBalance, .insertTransaction]⟩
      ∧ ∀ b : α, CreateTransaction noFault (some s) (.decoded { tx with Balance := b }) newID
          now1 now2 = CreateTransaction noFault (some s) (.decoded tx) newID now1 now2 := by
  rcases selectPreviousBalance_spec s.transactions tx.CompanyID with ⟨hnone, hno⟩ | ⟨r, hr, hc, hmax, hsome⟩
  · refine ⟨0, Or.inl ⟨hno, rfl⟩, ?_, ?_⟩
    · simp only [CreateTransaction, noFault, hnone, StatusCreated]
    · intro b
      simp only [CreateTransaction, noFault]
  · refine ⟨r.Balance, Or.inr ⟨r, hr, hc, hmax, rfl⟩, ?_, ?_⟩
    · simp only [CreateTransaction, noFault, hsome, StatusCreated]
    · intro b
      simp only [CreateTransaction, noFault]

/-- C7: when the fresh identifier is carried by no row of the store, `GetTransaction` on it
right after `CreateTransaction` answers with the very entry that `CreateTransaction`
answered with: the fields of the request, the computed balance, and the identifier and the
two time stamps that the server assigned. -/
theorem C7_create_then_get (parse : String → Option UUID) (idStr : String) (s : Store α)
    (tx : Transaction α) (newID : UUID) (now1 now2 : Time) (hp : parse idStr = some newID)
    (hfresh : ∀ t ∈ s.transactions, t.ID ≠ newID) :
    ∃ entry : Transaction α,
      (CreateTransaction noFault (some s) (.decoded tx) newID now1 now2).response
        = .http 201 (.transaction entry)
      ∧ (GetTransaction parse noFault
          (CreateTransaction noFault (some s) (.decoded tx) newID now1 now2).db idStr).response
        = .http 200 (.transaction entry)
      ∧ entry.Date = tx.Date ∧ entry.KG = tx.KG ∧ entry.Rate = tx.Rate
      ∧ entry.Amount = tx.Amount ∧ entry.Taxi = tx.Taxi ∧ entry.Cash = tx.Cash
      ∧ entry.CompanyID = tx.CompanyID
      ∧ entry.Balance
        = (selectPreviousBalance s.transactions tx.CompanyID).getD 0 + tx.Amount - tx.Cash
      ∧ entry.ID = newID ∧ entry.CreatedAt = now1 ∧ entry.UpdatedAt = now2 := by
  have hfind : ∀ (d : Time) (k r a x c b : α) (cid : UUID) (t1 t2 : Time),
      selectTransaction (s.transactions ++ [⟨newID, d, k, r, a, x, c, b, cid, t1, t2⟩]) newID
        = some ⟨newID, d, k, r, a, x, c, b, cid, t1, t2⟩ := by
    intro d k r a x c b cid t1 t2
    have hnone := selectTransaction_eq_none hfresh
    unfold selectTransaction at hnone ⊢
    rw [List.find?_append, hnone]
    simp
  cases hprev : selectPreviousBalance s.transactions tx.CompanyID with
  | none =>
    refine ⟨⟨newID, tx.Date, tx.KG, tx.Rate, tx.Amount, tx.Taxi, tx.Cash,
      0 + tx.Amount - tx.Cash, tx.CompanyID, now1, now2⟩, ?_, ?_, rfl, rfl, rfl, rfl, rfl, rfl,
      rfl, rfl, rfl, rfl, rfl⟩
    · simp only [CreateTransaction, noFault, hprev, StatusCreated]
    · simp only [CreateTransaction, GetTransaction, noFault, hprev, hp, hfind, StatusOK]
  | some b =>
    refine ⟨⟨newID, tx.Date, tx.KG, tx.Rate, tx.Amount, tx.Taxi, tx.Cash,
      b + tx.Amount - tx.Cash, tx.CompanyID, now1, now2⟩, ?_, ?_, rfl, rfl, rfl, rfl, rfl, rfl,
      rfl, rfl, rfl, rfl, rfl⟩
    · simp only [CreateTransaction, noFault, hprev, StatusCreated]
    · simp only [CreateTransaction, GetTransaction, noFault, hprev, hp, hfind, StatusOK]

end CreateClaims


section RunningBalanceLemmas

variable {α : Type}

theorem orderedInsert_of_forall_not {r : Transaction α → Transaction α → Prop} [DecidableRel r]
    (a : Transaction α) :
    ∀ l : List (Transaction α), (∀ b ∈ l, ¬ r a b) → l.orderedInsert r a = l ++ [a]
  | [], _ => rfl
  | b :: l, h => by
    have hb : ¬ r a b := h b (List.mem_cons_self b l)
    have hl : ∀ c ∈ l, ¬ r a c := fun c hc => h c (List.mem_cons_of_mem b hc)
    rw [List.orderedInsert, if_neg hb, orderedInsert_of_forall_not a l hl]
    rfl

/-- Rows created one strictly after the other come out reversed from `ORDER BY created_at
DESC`. -/
theorem orderByCreatedAtDesc_of_increasing :
    ∀ l : List (Transaction α), l.Pairwise (fun a b => a.CreatedAt < b.CreatedAt) →
      orderByCreatedAtDesc l = l.reverse
  | [], _ => rfl
  | a :: l, h => by
    have ha := (List.pairwise_cons.mp h).1
    have hl := (List.pairwise_cons.mp h).2
    have ih := orderByCreatedAtDesc_of_increasing l hl
    unfold orderByCreatedAtDesc at ih ⊢
    rw [List.insertionSort, ih, orderedInsert_of_forall_not, List.reverse_cons]
    intro b hb
    exact Nat.not_le.mpr (ha b (List.mem_reverse.mp hb))

theorem selectPreviousBalance_of_increasing (rows : List (Transaction α)) (cid : UUID)
    (h : rows.Pairwise (fun a b => a.CreatedAt < b.CreatedAt)) :
    selectPreviousBalance rows cid
      = (rows.filter (fun t => t.CompanyID = cid)).getLast?.map (fun t => t.Balance) := by
  unfold selectPreviousBalance
  rw [orderByCreatedAtDesc_of_increasing _ (h.filter _), List.head?_reverse]

theorem companyLedger_of_increasing (rows : List (Transaction α)) (cid : UUID)
    (h : rows.Pairwise (fun a b => a.CreatedAt < b.CreatedAt)) :
    companyLedger rows cid = rows.filter (fun t => t.CompanyID = cid) := by
  unfold companyLedger
  apply List.Sorted.insertionSort_eq
  exact (h.filter _).imp (fun hab => Nat.le_of_lt hab)

variable [Add α] [Sub α] [Zero α]

theorem runningTotal_concat (l : List (Transaction α)) (e : Transaction α) :
    runningTotal (l ++ [e]) = runningTotal l + e.Amount - e.Cash := by
  unfold runningTotal
  rw [List.foldl_append]
  rfl

theorem CarriedBalance.last {l : List (Transaction α)} (h : CarriedBalance l)
    {t : Transaction α} (ht : l.getLast? = some t) : t.Balance = runningTotal l := by
  obtain ⟨ys, rfl⟩ := List.getLast?_eq_some_iff.mp ht
  have := h ⟨ys.length, by simp⟩
  simp only [List.get_eq_getElem] at this
  rw [List.take_of_length_le (by simp), List.getElem_concat_length ys t _ rfl] at this
  exact this

theorem CarriedBalance.concat {l : List (Transaction α)} (h : CarriedBalance l)
    {e : Transaction α} (he : e.Balance = runningTotal l + e.Amount - e.Cash) :
    CarriedBalance (l ++ [e]) := by
  rintro ⟨i, hi⟩
  by_cases hlt : i < l.length
  · have := h ⟨i, hlt⟩
    simp only [List.get_eq_getElem] at this ⊢
    rw [List.getElem_append_left hlt, List.take_append_of_le_length (by omega), this]
  · have hi2 : i = l.length := by
      simp only [List.length_append, List.length_singleton] at hi
      omega
    subst hi2
    simp only [List.get_eq_getElem]
    rw [List.take_of_length_le (by simp), List.getElem_concat_length l e _ rfl,
      runningTotal_concat, he]

theorem CarriedBalance.nil : CarriedBalance ([] : List (Transaction α)) := by
  rintro ⟨i, hi⟩
  exact absurd hi (Nat.not_lt_zero i)

/-- The step of the ledger: a successful or failed `CreateTransaction` at a time after every
row of the store keeps the rows in creation order and the carried balance of every
company.  No law of arithmetic is used. -/
theorem CreateTransaction_preserves (c : CreateCall α) (s : Store α)
    (hinc : s.transactions.Pairwise (fun a b => a.CreatedAt < b.CreatedAt))
    (hlt : ∀ t ∈ s.transactions, t.CreatedAt < c.now1)
    (hrb : ∀ cid, CarriedBalance (s.transactions.filter (fun t => t.CompanyID = cid))) :
    ∃ s1 : Store α, (CreateTransaction c.fault (some s) c.body c.newID c.now1 c.now2).db = some s1
      ∧ s1.transactions.Pairwise (fun a b => a.CreatedAt < b.CreatedAt)
      ∧ (∀ t ∈ s1.transactions, t.CreatedAt ≤ c.now1)
      ∧ ∀ cid, CarriedBalance (s1.transactions.filter (fun t => t.CompanyID = cid)) := by
  have same : s.transactions.Pairwise (fun a b => a.CreatedAt < b.CreatedAt)
      ∧ (∀ t ∈ s.transactions, t.CreatedAt ≤ c.now1)
      ∧ ∀ cid, CarriedBalance (s.transactions.filter (fun t => t.CompanyID = cid)) :=
    ⟨hinc, fun t ht => Nat.le_of_lt (hlt t ht), hrb⟩
  unfold CreateTransaction
  cases c.body with
  | malformed err => exact ⟨s, rfl, same⟩
  | decoded tx =>
    simp only
    cases c.fault 0 with
    | some e => exact ⟨s, rfl, same⟩
    | none =>
      simp only
      cases c.fault 1 with
      | some e => exact ⟨s, rfl, same⟩
      | none =>
        simp only
        refine ⟨_, rfl, ?_, ?_, ?_⟩
        · rw [List.pairwise_append]
          refine ⟨hinc, List.pairwise_singleton _ _, ?_⟩
          intro a ha b hb
          rw [List.mem_singleton.mp hb]
          exact hlt a ha
        · intro t ht
          rcases List.mem_append.mp ht with h1 | h1
          · exact Nat.le_of_lt (hlt t h1)
          · rw [List.mem_singleton.mp h1]
        · intro cid
          rw [List.filter_append]
          by_cases hc : tx.CompanyID = cid
          · rw [List.filter_cons_of_pos (by simpa using hc), List.filter_nil]
            apply (hrb cid).concat
            simp only
            rw [selectPreviousBalance_of_increasing _ _ hinc, hc]
            cases hlast : (s.transactions.filter (fun t => t.CompanyID = cid)).getLast? with
            | none =>
              rw [List.getLast?_eq_none_iff.mp hlast]
              rfl
            | some t =>
              show t.Balance + tx.Amount - tx.Cash = _
              rw [(hrb cid).last hlast]
          · rw [List.filter_cons_of_neg (by simpa using hc), List.filter_nil, List.append_nil]
            exact hrb cid

theorem runCreates_preserves :
    ∀ (calls : List (CreateCall α)) (s : Store α),
      (calls.map (fun c => c.now1)).Pairwise (fun a b => a < b) →
      s.transactions.Pairwise (fun a b => a.CreatedAt < b.CreatedAt) →
      (∀ c ∈ calls, ∀ t ∈ s.transactions, t.CreatedAt < c.now1) →
      (∀ cid, CarriedBalance (s.transactions.filter (fun t => t.CompanyID = cid))) →
      ∃ s1 : Store α, runCreates (some s) calls = some s1
        ∧ s1.transactions.Pairwise (fun a b => a.CreatedAt < b.CreatedAt)
        ∧ ∀ cid, CarriedBalance (s1.transactions.filter (fun t => t.CompanyID = cid))
  | [], s, _, hinc, _, hrb => ⟨s, rfl, hinc, hrb⟩
  | c :: cs, s, htimes, hinc, hlt, hrb => by
    rw [List.map_cons, List.pairwise_cons] at htimes
    obtain ⟨s1, hs1, hinc1, hle1, hrb1⟩ :=
      CreateTransaction_preserves c s hinc (hlt c (List.mem_cons_self c cs)) hrb
    have hlt1 : ∀ d ∈ cs, ∀ t ∈ s1.transactions, t.CreatedAt < d.now1 := by
      intro d hd t ht
      exact Nat.lt_of_le_of_lt (hle1 t ht) (htimes.1 d.now1 (List.mem_map_of_mem _ hd))
    obtain ⟨s2, hs2, hinc2, hrb2⟩ := runCreates_preserves cs s1 htimes.2 hinc1 hlt1 hrb1
    exact ⟨s2, by rw [runCreates, hs1, hs2], hinc2, hrb2⟩

/-- The store a sequence of creations at strictly increasing times builds from the empty
one: rows in creation order, every company with its carried balance. -/
theorem runCreates_carried (calls : List (CreateCall α))
    (h : (calls.map (fun c => c.now1)).Pairwise (fun a b => a < b)) :
    ∃ s : Store α, runCreates (some Store.empty) calls = some s
      ∧ ∀ cid : UUID, companyLedger s.transactions cid
          = s.transactions.filter (fun t => t.CompanyID = cid)
        ∧ CarriedBalance (companyLedger s.transactions cid) := by
  obtain ⟨s, hs, hinc, hrb⟩ := runCreates_preserves calls Store.empty h List.Pairwise.nil
    (fun _ _ t ht => absurd ht (List.not_mem_nil t)) (fun _ => CarriedBalance.nil)
  refine ⟨s, hs, fun cid => ?_⟩
  rw [companyLedger_of_increasing _ _ hinc]
  exact ⟨rfl, hrb cid⟩

end RunningBalanceLemmas

section ExactArithmetic

variable {α : Type} [AddCommGroup α]

/-- In exact arithmetic the running total is the sum of the net amounts. -/
theorem foldl_running_eq_sum (l : List (Transaction α)) (acc : α) :
    l.foldl (fun acc t => acc + t.Amount - t.Cash) acc = acc + (l.map net).sum := by
  induction l generalizing acc with
  | nil => simp
  | cons t ts ih =>
    rw [List.foldl_cons, ih, List.map_cons, List.sum_cons, net, add_sub_assoc, add_assoc]

theorem runningTotal_eq_sum (l : List (Transaction α)) :
    runningTotal l = (l.map net).sum := by
  unfold runningTotal
  rw [foldl_running_eq_sum, zero_add]

theorem CarriedBalance.runningBalance {l : List (Transaction α)} (h : CarriedBalance l) :
    RunningBalance l := by
  intro i
  rw [← runningTotal_eq_sum]
  exact h i

end ExactArithmetic



section LedgerClaims

variable {α : Type}

/-- C2, as amended: a store built from the empty one by `CreateTransaction` calls alone,
made one after the other at strictly increasing creation times, has for every company the
carried balance: in creation order, the `Balance` of each entry is the running total that
starts from 0 and, for each entry of the company up to and including it, adds the `Amount`
and then subtracts the `Cash` in the arithmetic of the number type (for the code,
`float64`); so the `Balance` of the latest entry is the running total over all the entries
of the company.  No law of arithmetic is assumed. -/
theorem C2_carried_balance_after_creates [Add α] [Sub α] [Zero α]
    (calls : List (CreateCall α))
    (h : (calls.map (fun c => c.now1)).Pairwise (fun a b => a < b)) :
    ∃ s : Store α, runCreates (some Store.empty) calls = some s
      ∧ ∀ cid : UUID, CarriedBalance (companyLedger s.transactions cid)
        ∧ ∀ t, (companyLedger s.transactions cid).getLast? = some t →
            t.Balance = runningTotal (companyLedger s.transactions cid) := by
  obtain ⟨s, hs, hall⟩ := runCreates_carried calls h
  exact ⟨s, hs, fun cid => ⟨(hall cid).2, fun t ht => (hall cid).2.last ht⟩⟩

set_option maxRecDepth 100000 in
theorem C2_carried_balance_after_creates_witness :
    (roundingCalls.map (fun c => c.now1)).Pairwise (fun a b => a < b)
    ∧ ∃ s : Store F64, runCreates (some Store.empty) roundingCalls = some s
      ∧ ∀ cid : UUID, CarriedBalance (companyLedger s.transactions cid)
        ∧ ∀ t, (companyLedger s.transactions cid).getLast? = some t →
            t.Balance = runningTotal (companyLedger s.transactions cid) :=
  ⟨by decide, C2_carried_balance_after_creates roundingCalls (by decide)⟩

set_option maxRecDepth 100000 in
/-- C2, the claim as stated fails in `float64`.  Two creations for company 1 at times 1 and
2, the first with amount 9007199254740992 and cash 0, the second with amount 1 and cash 1,
leave the balances 9007199254740992 and 9007199254740991: `2 ^ 53 + 1` rounds to `2 ^ 53`
before the cash is subtracted.  The sum of `Amount - Cash` over the two entries is
9007199254740992 (in `float64` and in exact arithmetic alike), so the second entry breaks
the running balance, while it has the carried balance. -/
theorem C2_float64_rounding_counterexample :
    (roundingCalls.map (fun c => c.now1)).Pairwise (fun a b => a < b)
    ∧ runCreates (some Store.empty) roundingCalls = some roundingStore
    ∧ companyLedger roundingStore.transactions 1 = roundingStore.transactions
    ∧ (roundingStore.transactions.get ⟨1, by decide⟩).Balance = F64.ofInt 9007199254740991
    ∧ ((roundingStore.transactions.take 2).map net).sum = F64.ofInt 9007199254740992
    ∧ ¬ RunningBalance (companyLedger roundingStore.transactions 1)
    ∧ CarriedBalance (companyLedger roundingStore.transactions 1) := by
  decide

/-- In exact arithmetic (the numbers form a commutative group) the carried balance is the
running balance of the specification: after creations alone at strictly increasing times,
the `Balance` of each entry is the sum of `Amount - Cash` over the entries of the company
up to and including it. -/
theorem running_balance_in_exact_arithmetic [AddCommGroup α] (calls : List (CreateCall α))
    (h : (calls.map (fun c => c.now1)).Pairwise (fun a b => a < b)) :
    ∃ s : Store α, runCreates (some Store.empty) calls = some s
      ∧ ∀ cid : UUID, RunningBalance (companyLedger s.transactions cid)
        ∧ ∀ t, (companyLedger s.transactions cid).getLast? = some t →
            t.Balance = ((companyLedger s.transactions cid).map net).sum := by
  obtain ⟨s, hs, hall⟩ := runCreates_carried calls h
  refine ⟨s, hs, fun cid => ⟨(hall cid).2.runningBalance, fun t ht => ?_⟩⟩
  rw [← runningTotal_eq_sum]
  exact (hall cid).2.last ht

/-- C10: delete and update break the running balance.  The store of `exampleCalls` is built
by creations alone at increasing times.  Deleting its first entry answers 200 and leaves the
second entry of the company with its old `Balance` of 100, while the sum over the entries
that remain is 30.  Updating the `Amount` of the first entry from 100 to 200 (with the
matching `Balance` 170 in the body) answers 200 and leaves the second entry with its old
`Balance` of 100, while the sum up to it is now 200. -/
theorem C10_delete_and_update_break_running_balance :
    (exampleCalls.map (fun c => c.now1)).Pairwise (fun a b => a < b)
    ∧ runCreates (some Store.empty) exampleCalls = some exampleStore
    ∧ RunningBalance (companyLedger exampleStore.transactions 1)
    ∧ (∃ s1 : Store Int,
        DeleteTransaction exampleParse noFault (some exampleStore) "5"
          = ⟨.http 200 (.text "Transaction deleted successfully"), some s1,
              [.deleteTransaction]⟩
        ∧ ∃ i : Fin (companyLedger s1.transactions 1).length,
            ((companyLedger s1.transactions 1).get i) ∈ exampleStore.transactions
            ∧ ((companyLedger s1.transactions 1).get i).Balance
              ≠ (((companyLedger s1.transactions 1).take (i.val + 1)).map net).sum)
    ∧ (selectTransaction exampleStore.transactions 5).map (fun t => t.Amount) = some 100
    ∧ (∃ s1 : Store Int,
        UpdateTransaction exampleParse noFault (some exampleStore) "5"
            (.decoded ⟨0, 0, 0, 0, 200, 0, 30, 170, 0, 0, 0⟩) 3
          = ⟨.http 200 (.transaction ⟨5, 0, 0, 0, 200, 0, 30, 170, 1, 1, 3⟩), some s1,
              [.selectCurrentTransaction, .updateTransaction, .selectTransaction]⟩
        ∧ ∃ i : Fin (companyLedger s1.transactions 1).length,
            ((companyLedger s1.transactions 1).get i) ∈ exampleStore.transactions
            ∧ ((companyLedger s1.transactions 1).get i).Balance
              ≠ (((companyLedger s1.transactions 1).take (i.val + 1)).map net).sum) := by
  refine ⟨by decide, by decide, by decide, ?_, by decide, ?_⟩
  · exact ⟨⟨[⟨6, 0, 0, 0, 50, 0, 20, 100, 1, 2, 2⟩], []⟩, by decide, ⟨0, by decide⟩, by decide,
      by decide⟩
  · exact ⟨⟨[⟨5, 0, 0, 0, 200, 0, 30, 170, 1, 1, 3⟩, ⟨6, 0, 0, 0, 50, 0, 20, 100, 1, 2, 2⟩], []⟩,
      by decide, ⟨1, by decide⟩, by decide, by decide⟩

/-- The transaction handlers answer a malformed body with status 400 and the text of the
decoder, before the store handle is even looked at. -/
theorem transaction_handlers_reject_malformed_body [Add α] [Sub α] [Zero α]
    (parse : String → Option UUID) (fault : Nat → Option String) (db : Option (Store α))
    (err idStr : String) (id newID : UUID) (now1 now2 : Time) (hp : parse idStr = some id) :
    CreateTransaction fault db (.malformed err) newID now1 now2
        = ⟨.http 400 (.text err), db, []⟩
    ∧ UpdateTransaction parse fault db idStr (.malformed err) now1
        = ⟨.http 400 (.text err), db, []⟩ := by
  simp only [CreateTransaction, UpdateTransaction, hp, StatusBadRequest, and_self]

/-- The company handlers drop the error of the decoder: on every store whose statements do
not fail, `CreateCompany` with a malformed body answers 200 and inserts a company with the
empty name and no image. -/
theorem CreateCompany_malformed_body (s : Store α) (err : String) (newID : UUID) :
    CreateCompany noFault (some s) (.malformed err) newID
      = ⟨.http 200 (.company ⟨newID, "", ⟨"", false⟩⟩),
          some ⟨s.transactions, s.companies ++ [⟨newID, "", none⟩]⟩, [.insertCompany]⟩ := by
  simp [CreateCompany, noFault, Company.zero, NullString.value, StatusOK]

/-- C9, the code at the failing input: a body that is not JSON (the decoder reports
`unexpected EOF`).  `CreateTransaction` answers 400 and leaves the store alone, but
`CreateCompany` answers 200 and inserts a company with the empty name, and `UpdateCompany`
answers 200 and overwrites the name and the image of company 7 with the empty name and NULL. -/
theorem C9_company_handlers_accept_malformed_body :
    CreateTransaction noFault (some (Store.empty : Store Int)) (.malformed "unexpected EOF") 7 1 1
      = ⟨.http 400 (.text "unexpected EOF"), some Store.empty, []⟩
    ∧ CreateCompany noFault (some (Store.empty : Store Int)) (.malformed "unexpected EOF") 7
      = ⟨.http 200 (.company ⟨7, "", ⟨"", false⟩⟩), some ⟨[], [⟨7, "", none⟩]⟩,
          [.insertCompany]⟩
    ∧ UpdateCompany exampleParse noFault
        (some (⟨[], [⟨7, "Acme", some "acme.png"⟩]⟩ : Store Int)) "7"
        (.malformed "unexpected EOF")
      = ⟨.http 200 (.company ⟨7, "", ⟨"", false⟩⟩), some ⟨[], [⟨7, "", none⟩]⟩,
          [.updateCompany, .selectCompany]⟩ := by
  decide

end LedgerClaims

section Witnesses

theorem C7_create_then_get_witness :
    exampleParse "7" = some 7
    ∧ (∀ t ∈ exampleStore.transactions, t.ID ≠ 7)
    ∧ ∃ entry : Transaction Int,
      (CreateTransaction noFault (some exampleStore)
          (.decoded ⟨0, 9, 2, 3, 40, 1, 15, 999, 1, 0, 0⟩) 7 3 4).response
        = .http 201 (.transaction entry)
      ∧ (GetTransaction exampleParse noFault
          (CreateTransaction noFault (some exampleStore)
            (.decoded ⟨0, 9, 2, 3, 40, 1, 15, 999, 1, 0, 0⟩) 7 3 4).db "7").response
        = .http 200 (.transaction entry)
      ∧ entry.Date = 9 ∧ entry.KG = 2 ∧ entry.Rate = 3
      ∧ entry.Amount = 40 ∧ entry.Taxi = 1 ∧ entry.Cash = 15
      ∧ entry.CompanyID = 1
      ∧ entry.Balance = (selectPreviousBalance exampleStore.transactions 1).getD 0 + 40 - 15
      ∧ entry.ID = 7 ∧ entry.CreatedAt = 3 ∧ entry.UpdatedAt = 4 :=
  ⟨by decide, by decide,
    C7_create_then_get exampleParse "7" exampleStore ⟨0, 9, 2, 3, 40, 1, 15, 999, 1, 0, 0⟩ 7 3 4
      (by decide) (by decide)⟩

end Witnesses

end DawnPineapples
